import Mathlib

/-!
Shallow embedding of the DocuQuery frontend (React client) and proofs about it.

Source files embedded:
- frontend/src/components/ChatInterface.js : handleSend, DocumentUpload.onDrop
- frontend/src/components/DocumentList.js  : loadDocs, handleDelete
- frontend/src/components/SettingsModal.js : handleSave (and App from App.js)
- frontend/src/api.js                      : queryDocument, getDocuments

State held in React useState hooks is made explicit; each event handler
becomes a pure function from the pre-state (plus the outcome of any awaited
backend call, which is external input) to the post-state together with the
trace of outward-visible effects (requests issued, callbacks invoked, alerts).
-/

namespace DocuQuery

/-- Model of JS String.prototype.trim: drop whitespace from both ends.
Lean's own String.trim is extensionally the same on the strings appearing here
but its Substring-based implementation does not reduce in the kernel, so the
list-based definition is used throughout. -/
def jsTrim (s : String) : String :=
  String.mk (((s.data.dropWhile Char.isWhitespace).reverse.dropWhile Char.isWhitespace).reverse)

deriving instance DecidableEq for Except

/-- Sender of a chat message: the sender field of the message objects built in
ChatInterface.handleSend is either the string user or the string assistant. -/
inductive Sender
  | user
  | assistant
deriving DecidableEq

/-- Chat message as built by ChatInterface.handleSend. User messages carry no
citations and no chunks; assistant messages built from a successful response
carry both; assistant error messages carry neither. The Date timestamps are
abstracted to Nat. -/
structure Message where
  sender : Sender
  text : String
  citations : Option (List Int)
  chunks : Option String
  timestamp : Nat
deriving DecidableEq

/-- Response body of POST /query as consumed by handleSend
(response.answer, response.citations, response.chunks). -/
structure QueryResponse where
  answer : String
  citations : List Int
  chunks : String
deriving DecidableEq

/-- Outcome of the awaited queryDocument call: either a response body, or a
rejection carrying the optional structured backend detail
(error.response.data.detail, absent for transport failures) and the
error message string (error.message). -/
inductive QueryOutcome
  | success (resp : QueryResponse)
  | failure (detail : Option String) (message : String)
deriving DecidableEq

/-- Settings record as persisted under the apiSettings localStorage key by
SettingsModal.handleSave: three string fields. A key missing from the parsed
JSON object reads as undefined, which is falsy exactly like the empty string,
so missing fields are represented as the empty string. -/
structure SettingsJson where
  apiBaseUrl : String
  apiKey : String
  model : String
deriving DecidableEq

/-- Backend document record as returned by the upload and documents endpoints
(id, name, page_count, file_size, upload_date, processed). -/
structure DocumentJson where
  id : Nat
  name : String
  page_count : Nat
  file_size : Nat
  upload_date : String
  processed : Bool
deriving DecidableEq

/-! JSON model for the apiSettings record.

handleSave writes JSON.stringify of a flat object with the three string fields
apiBaseUrl, apiKey, model; handleSend and the settings modal read it back with
JSON.parse, which throws on unparseable input. The model below implements the
stringify output format (flat object, string keys and values, quote and
backslash escaped) and a parse that accepts exactly such flat string objects
and errors on anything else, mirroring that JSON.parse of a corrupt record
throws. -/

/-- Escape a character sequence the way JSON.stringify escapes string content
for the characters that can appear here (quote and backslash). -/
def escapeChars : List Char → List Char
  | [] => []
  | c :: cs =>
    if c = '"' ∨ c = '\\' then '\\' :: c :: escapeChars cs
    else c :: escapeChars cs

/-- Quote a string as a JSON string literal. -/
def quoteString (s : String) : String :=
  "\"" ++ String.mk (escapeChars s.data) ++ "\""

/-- Canonical JSON.stringify output for a settings record:
a flat object listing apiBaseUrl, apiKey, model in that order. -/
def stringifySettings (s : SettingsJson) : String :=
  "\x7b" ++ quoteString "apiBaseUrl" ++ ":" ++ quoteString s.apiBaseUrl ++ "," ++
    quoteString "apiKey" ++ ":" ++ quoteString s.apiKey ++ "," ++
    quoteString "model" ++ ":" ++ quoteString s.model ++ "\x7d"

/-- Parse the body of a JSON string literal after the opening quote, undoing
the escapes of escapeChars; returns the content and the rest of the input. -/
def parseJStringAux : List Char → Option (List Char × List Char)
  | [] => none
  | '"' :: rest => some ([], rest)
  | '\\' :: c :: rest =>
    if c = '"' ∨ c = '\\' then
      match parseJStringAux rest with
      | some (s, r) => some (c :: s, r)
      | none => none
    else none
  | c :: rest =>
    match parseJStringAux rest with
    | some (s, r) => some (c :: s, r)
    | none => none

/-- Parse one key:value pair of string literals. -/
def parsePair : List Char → Option ((String × String) × List Char)
  | '"' :: rest =>
    match parseJStringAux rest with
    | some (k, ':' :: '"' :: rest2) =>
      match parseJStringAux rest2 with
      | some (v, rest3) => some ((String.mk k, String.mk v), rest3)
      | none => none
    | _ => none
  | _ => none

/-- Parse the comma-separated pairs of a flat object up to the closing brace;
fuel-bounded recursion on the remaining input length. -/
def parsePairsAux : List Char → Nat → Option (List (String × String))
  | _, 0 => none
  | cs, fuel + 1 =>
    match parsePair cs with
    | some (kv, '\x7d' :: []) => some [kv]
    | some (kv, ',' :: rest2) =>
      match parsePairsAux rest2 fuel with
      | some kvs => some (kv :: kvs)
      | none => none
    | _ => none

/-- Field lookup in the parsed object: a missing key is undefined, which is
falsy like the empty string. -/
def lookupField (kvs : List (String × String)) (k : String) : String :=
  match kvs.find? (fun kv => kv.1 == k) with
  | some kv => kv.2
  | none => ""

/-- Model of JSON.parse applied to the apiSettings record: accepts flat
objects of string fields and errors on anything else (JSON.parse throws a
SyntaxError on corrupt input). -/
def jsonParseSettings (s : String) : Except String SettingsJson :=
  match s.data with
  | '\x7b' :: '\x7d' :: [] => Except.ok ⟨"", "", ""⟩
  | '\x7b' :: rest =>
    match parsePairsAux rest rest.length with
    | some kvs =>
      Except.ok ⟨lookupField kvs "apiBaseUrl", lookupField kvs "apiKey", lookupField kvs "model"⟩
    | none => Except.error "Unexpected token in JSON"
  | _ => Except.error "Unexpected token in JSON"

/-- Settings read as performed inside ChatInterface.handleSend:
saved = localStorage.getItem(apiSettings); apiSettings = saved ? JSON.parse(saved) : null.
An absent record yields null (no overrides); a present record is parsed, and a
parse failure propagates as a thrown exception (the error branch). -/
def getApiSettings (saved : Option String) : Except String (Option SettingsJson) :=
  match saved with
  | none => Except.ok none
  | some str =>
    match jsonParseSettings str with
    | Except.ok s => Except.ok (some s)
    | Except.error e => Except.error e

/-- Request body of POST /query as built by queryDocument in api.js. The three
override fields are Option valued: none means the key is absent from the body. -/
structure QueryPayload where
  question : String
  doc_id : Option Nat
  conversation_id : Option Nat
  stream : Bool
  api_base_url : Option String
  api_key : Option String
  model : Option String
deriving DecidableEq

/-- Payload construction of queryDocument in api.js: the base body always has
question, doc_id, conversation_id and stream:false; each override key is added
only when apiSettings is non-null and the corresponding field is truthy
(a non-empty string). -/
def queryDocument (question : String) (docId : Option Nat) (conversationId : Option Nat)
    (apiSettings : Option SettingsJson) : QueryPayload :=
  let payload : QueryPayload := ⟨question, docId, conversationId, false, none, none, none⟩
  match apiSettings with
  | none => payload
  | some s =>
    { payload with
      api_base_url := if s.apiBaseUrl ≠ "" then some s.apiBaseUrl else none
      api_key := if s.apiKey ≠ "" then some s.apiKey else none
      model := if s.model ≠ "" then some s.model else none }

/-- Error text derivation of the catch branch of handleSend:
error.response.data.detail, falling back to error.message, falling back to the
literal Unknown error, where the JS fallback operator skips falsy (empty or
absent) strings. -/
def errorDetailMsg (detail : Option String) (message : String) : String :=
  match detail with
  | some d => if d ≠ "" then d else if message ≠ "" then message else "Unknown error"
  | none => if message ≠ "" then message else "Unknown error"

/-- ChatInterface component state: the messages, input and loading useState
hooks (loading is the pending flag of the session). -/
structure ChatState where
  messages : List Message
  input : String
  loading : Bool
deriving DecidableEq

/-- Result of one handleSend invocation: the post-state of the component and
the list of query requests issued to the backend during the call. -/
structure HandleSendResult where
  state : ChatState
  requests : List QueryPayload
deriving DecidableEq

/-- ChatInterface.handleSend. Guard: return immediately when the trimmed input
is empty or loading is set. Otherwise append the user message, clear the input,
set loading, read and parse the stored settings (a parse failure is caught by
the surrounding try and becomes an error assistant message with no request
issued), issue the query and append the assistant message built from the
response or from the caught failure; loading is cleared in the finally block
on every path. -/
def handleSend (st : ChatState) (docId : Option Nat) (conversationId : Option Nat)
    (stored : Option String) (outcome : QueryOutcome) (t1 t2 : Nat) : HandleSendResult :=
  if jsTrim st.input = "" ∨ st.loading = true then ⟨st, []⟩
  else
    let userMsg : Message := ⟨Sender.user, st.input, none, none, t1⟩
    let st1 : ChatState := ⟨st.messages ++ [userMsg], "", true⟩
    match getApiSettings stored with
    | Except.error e =>
      ⟨⟨st1.messages ++ [⟨Sender.assistant, "Error: " ++ errorDetailMsg none e, none, none, t2⟩],
          st1.input, false⟩, []⟩
    | Except.ok apiSettings =>
      let payload := queryDocument st.input docId conversationId apiSettings
      match outcome with
      | QueryOutcome.success resp =>
        ⟨⟨st1.messages ++ [⟨Sender.assistant, resp.answer, some resp.citations, some resp.chunks, t2⟩],
            st1.input, false⟩, [payload]⟩
      | QueryOutcome.failure detail message =>
        ⟨⟨st1.messages ++ [⟨Sender.assistant, "Error: " ++ errorDetailMsg detail message, none, none, t2⟩],
            st1.input, false⟩, [payload]⟩

/-! DocumentUpload (in ChatInterface.js): sequential upload loop. -/

/-- Status field of a progress entry in DocumentUpload: the onDrop handler
initialises every entry to uploading and later rewrites it to success or
error. -/
inductive UploadStatus
  | uploading
  | success
  | error
deriving DecidableEq

/-- Progress entry of DocumentUpload: name, status, the id added on success
and the error message added on failure. -/
structure UploadTask where
  name : String
  status : UploadStatus
  id : Option Nat
  error : Option String
deriving DecidableEq

/-- Outcome of one awaited uploadDocument call: the resulting document record,
or a rejection with error.message. -/
inductive UploadResult
  | ok (doc : DocumentJson)
  | err (message : String)
deriving DecidableEq

/-- Outward-visible events of the onDrop loop, tagged with the loop index they
occur at: the uploadDocument call, the terminal progress update, and the
onUploadSuccess callback. -/
inductive UploadEvent
  | uploadCall (i : Nat) (name : String)
  | taskSuccess (i : Nat) (docId : Nat)
  | taskError (i : Nat) (message : String)
  | reportSuccess (i : Nat) (doc : DocumentJson)
deriving DecidableEq

/-- Initial progress entry built by setProgress(files.map(...)): status
uploading, no id, no error. -/
def initTask (name : String) : UploadTask :=
  ⟨name, UploadStatus.uploading, none, none⟩

/-- Success update applied to entry i: spread the entry, set status success
and add the result id. -/
def successUpdate (doc : DocumentJson) (p : UploadTask) : UploadTask :=
  { p with status := UploadStatus.success, id := some doc.id }

/-- Error update applied to entry i: spread the entry, set status error and
add the error message. -/
def errorUpdate (m : String) (p : UploadTask) : UploadTask :=
  { p with status := UploadStatus.error, error := some m }

/-- Pointwise update of index i, as performed by
prev.map((p, idx) => idx === i ? upd(p) : p): every other element is kept. -/
def updateAt {α : Type} : Nat → (α → α) → List α → List α
  | _, _, [] => []
  | 0, f, x :: xs => f x :: xs
  | i + 1, f, x :: xs => x :: updateAt i f xs

/-- Events emitted by iteration i of the loop: the upload call, then on
success the progress update and the onUploadSuccess callback, on failure the
error progress update. -/
def uploadBlock (i : Nat) (name : String) : UploadResult → List UploadEvent
  | UploadResult.ok doc => [UploadEvent.uploadCall i name, UploadEvent.taskSuccess i doc.id,
      UploadEvent.reportSuccess i doc]
  | UploadResult.err m => [UploadEvent.uploadCall i name, UploadEvent.taskError i m]

/-- Progress update performed by iteration i of the loop. -/
def uploadStep (i : Nat) (r : UploadResult) (prog : List UploadTask) : List UploadTask :=
  match r with
  | UploadResult.ok doc => updateAt i (successUpdate doc) prog
  | UploadResult.err m => updateAt i (errorUpdate m) prog

/-- Sequential upload loop of onDrop from index i: each iteration awaits its
own upload (its outcome is the second component of the input pair) before the
next iteration begins, so the event list of iteration i precedes everything of
iteration i+1. -/
def uploadSteps : Nat → List (String × UploadResult) → List UploadTask →
    List UploadTask × List UploadEvent
  | _, [], prog => (prog, [])
  | i, (name, r) :: rest, prog =>
    let next := uploadSteps (i + 1) rest (uploadStep i r prog)
    (next.1, uploadBlock i name r ++ next.2)

/-- DocumentUpload.onDrop on a batch of files with their backend outcomes:
initialise progress to uploading for every file, then run the sequential loop.
The returned progress is the state right after the loop completes (before the
delayed setProgress([]) clears it). -/
def onDrop (files : List (String × UploadResult)) : List UploadTask × List UploadEvent :=
  uploadSteps 0 files (files.map (fun f => initTask f.1))

/-- Terminal progress entry that iteration i leaves for its own file. -/
def finalTask : String × UploadResult → UploadTask
  | (name, UploadResult.ok doc) => ⟨name, UploadStatus.success, some doc.id, none⟩
  | (name, UploadResult.err m) => ⟨name, UploadStatus.error, none, some m⟩

/-- Documents reported upward through the onUploadSuccess callback, in event
order. -/
def reportedDocs (tr : List UploadEvent) : List DocumentJson :=
  tr.filterMap fun e =>
    match e with
    | UploadEvent.reportSuccess _ doc => some doc
    | _ => none

/-- Successful outcome of a file, if any. -/
def okDoc : String × UploadResult → Option DocumentJson
  | (_, UploadResult.ok doc) => some doc
  | (_, UploadResult.err _) => none

/-- Whether a file of the batch failed. -/
def isErrFile (f : String × UploadResult) : Bool :=
  match f.2 with
  | UploadResult.err _ => true
  | UploadResult.ok _ => false

/-- Upload call events of a trace. -/
def callsOf (tr : List UploadEvent) : List UploadEvent :=
  tr.filter fun e =>
    match e with
    | UploadEvent.uploadCall _ _ => true
    | _ => false

/-- Expected upload calls for a batch starting at index i: exactly one call
per file, in input order. -/
def expectedCalls : Nat → List (String × UploadResult) → List UploadEvent
  | _, [] => []
  | i, (name, _) :: rest => UploadEvent.uploadCall i name :: expectedCalls (i + 1) rest

/-- Whether an event is the terminal progress update of file i. -/
def terminalFor (i : Nat) : UploadEvent → Bool
  | UploadEvent.taskSuccess j _ => j == i
  | UploadEvent.taskError j _ => j == i
  | _ => false

/-! DocumentList.js: loadDocs and handleDelete. -/

/-- DocumentList component state: the docs, loading and selectedId useState
hooks. -/
structure DLState where
  docs : List DocumentJson
  loading : Bool
  selectedId : Option Nat
deriving DecidableEq

/-- Outward-visible effects of handleDelete: the onSelectDocument callback and
the alert dialog. -/
inductive DLEvent
  | selectDocument (doc : Option DocumentJson)
  | alertShown (message : String)
deriving DecidableEq

/-- DocumentList.handleDelete on document docId, given whether the user
confirmed the dialog and the outcome of the awaited deleteDocument call.
On success the document is filtered out of docs and, if it was the selected
one, the selection is cleared and reported upward; on failure the state is
left untouched and the failure is surfaced with an alert. -/
def handleDelete (st : DLState) (docId : Nat) (confirmed : Bool)
    (backend : Except String Unit) : DLState × List DLEvent :=
  if confirmed = false then (st, [])
  else
    match backend with
    | Except.ok _ =>
      let st1 : DLState := { st with docs := st.docs.filter (fun doc => doc.id ≠ docId) }
      if st.selectedId = some docId then
        ({ st1 with selectedId := none }, [DLEvent.selectDocument none])
      else (st1, [])
    | Except.error _ => (st, [DLEvent.alertShown "Failed to delete document"])

/-- Request parameters of GET /documents. -/
structure DocumentsRequest where
  skip : Nat
  limit : Nat
deriving DecidableEq

/-- Parameter record built by getDocuments in api.js. -/
def getDocumentsRequest (skip : Nat) (limit : Nat) : DocumentsRequest :=
  ⟨skip, limit⟩

/-- Default arguments of getDocuments in api.js: skip = 0, limit = 100. -/
def getDocumentsDefaults : DocumentsRequest :=
  getDocumentsRequest 0 100

/-- Request issued by DocumentList.loadDocs, which calls getDocuments() with
no arguments, so both defaults apply. -/
def loadDocsRequest : DocumentsRequest :=
  getDocumentsDefaults

/-- Modelled from the spec: the backend GET /documents?skip&limit endpoint is
not part of the frontend sources; per the external-interface table it returns
the documents window selected by skip and limit. -/
def documentsEndpoint (allDocs : List DocumentJson) (r : DocumentsRequest) : List DocumentJson :=
  (allDocs.drop r.skip).take r.limit

/-- DocumentList.loadDocs on backend state allDocs (success path): docs is
replaced by the response and loading is cleared. -/
def loadDocs (st : DLState) (allDocs : List DocumentJson) : DLState :=
  { st with docs := documentsEndpoint allDocs loadDocsRequest, loading := false }

/-! SettingsModal.js: handleSave. -/

/-- Form state of the settings modal: the three input fields. -/
structure SettingsForm where
  apiBaseUrl : String
  apiKey : String
  model : String
deriving DecidableEq

/-- SettingsModal.handleSave: trim all three fields; if any trimmed field is
truthy (non-empty) the stringified record replaces whatever was stored under
the apiSettings key, otherwise the key is removed. The previous store content
is taken as an argument to express that setItem and removeItem overwrite it
unconditionally. -/
def handleSave (form : SettingsForm) (_prev : Option String) : Option String :=
  let settings : SettingsJson := ⟨jsTrim form.apiBaseUrl, jsTrim form.apiKey, jsTrim form.model⟩
  if settings.apiBaseUrl ≠ "" ∨ settings.apiKey ≠ "" ∨ settings.model ≠ "" then
    some (stringifySettings settings)
  else
    none

/-! App.js: tab and selection state, and the lifetime of the ChatInterface
component instance. -/

/-- Active sidebar tab of App. -/
inductive Tab
  | documents
  | upload
  | chat
deriving DecidableEq

/-- App component state: activeTab, selectedDoc and refreshTrigger hooks,
together with the state of the single ChatInterface instance App renders. -/
structure AppState where
  activeTab : Tab
  selectedDoc : Option DocumentJson
  refreshTrigger : Nat
  chat : ChatState
deriving DecidableEq

/-- Initial state of a freshly mounted ChatInterface: no messages, empty
input, not loading. -/
def initialChat : ChatState :=
  ⟨[], "", false⟩

/-- Initial App state: documents tab, nothing selected. -/
def initialAppState : AppState :=
  ⟨Tab.documents, none, 0, initialChat⟩

/-- Mount condition of the ChatInterface element in App:
activeTab === chat || selectedDoc. The component carries no key, so while this
condition holds the same instance, and with it the messages hook, survives
changes of the document prop. -/
def chatMounted (st : AppState) : Bool :=
  decide (st.activeTab = Tab.chat) || st.selectedDoc.isSome

/-- App.handleDocSelect: store the selection and, when a document was chosen,
switch to the chat tab. -/
def handleDocSelect (st : AppState) (doc : Option DocumentJson) : AppState :=
  { st with selectedDoc := doc,
            activeTab := if doc.isSome then Tab.chat else st.activeTab }

/-- User-level actions of the App model: selecting a document, switching the
tab, a successful upload bumping refreshTrigger, and a chat submission (with
the stored settings snapshot and the backend outcome it is given). -/
inductive AppAction
  | selectDoc (doc : Option DocumentJson)
  | setTab (t : Tab)
  | uploadSuccess
  | chatSubmit (input : String) (stored : Option String) (outcome : QueryOutcome) (t1 t2 : Nat)

/-- Effect of one action on the App state. A chat submission goes through the
mounted ChatInterface instance: App passes selectedDoc as the document prop
and no conversationId prop. -/
def applyAction (st : AppState) : AppAction → AppState
  | AppAction.selectDoc doc => handleDocSelect st doc
  | AppAction.setTab t => { st with activeTab := t }
  | AppAction.uploadSuccess => { st with refreshTrigger := st.refreshTrigger + 1 }
  | AppAction.chatSubmit input stored outcome t1 t2 =>
    if chatMounted st then
      { st with chat := (handleSend { st.chat with input := input }
          (st.selectedDoc.map DocumentJson.id) none stored outcome t1 t2).state }
    else st

/-- One App step: apply the action, then account for the component lifetime:
when the ChatInterface element is not rendered its useState content is
discarded, so a later remount starts again from the initial hook state. -/
def appStep (st : AppState) (a : AppAction) : AppState :=
  let st1 := applyAction st a
  if chatMounted st1 then st1 else { st1 with chat := initialChat }

/-- Whether a progress entry has reached a terminal status. -/
def isTerminal (t : UploadTask) : Bool :=
  match t.status with
  | UploadStatus.uploading => false
  | UploadStatus.success => true
  | UploadStatus.error => true

/-- Sample backend document record used for concrete runs. -/
def docA : DocumentJson :=
  ⟨1, "a.pdf", 3, 100, "2024-01-01", true⟩

/-- Second sample backend document record. -/
def docB : DocumentJson :=
  ⟨2, "b.pdf", 5, 200, "2024-01-02", true⟩

/-- Concrete App run: select document docA, submit a question that the backend
answers, then select document docB. -/
def c7Run : AppState :=
  appStep
    (appStep (appStep initialAppState (AppAction.selectDoc (some docA)))
      (AppAction.chatSubmit "What is the total revenue?" none
        (QueryOutcome.success ⟨"$4.2M", [3, 7], ""⟩) 0 1))
    (AppAction.selectDoc (some docB))

/-! Helper lemmas about the upload loop. -/

/-- Updating the index right past a prefix rewrites exactly the element there
and keeps everything else. -/
theorem updateAt_append {α : Type} (done : List α) (f : α → α) (x : α) (xs : List α) :
    updateAt done.length f (done ++ x :: xs) = done ++ f x :: xs := by
  induction done with
  | nil => rfl
  | cons a l ih => simp [updateAt, ih]

/-- Progress invariant of the sequential loop: started at the index right past
the already-finished prefix, with the remaining entries still in their initial
state, it leaves the prefix alone and drives every remaining entry to its
terminal entry. -/
theorem uploadSteps_progress (fs : List (String × UploadResult)) :
    ∀ done : List UploadTask,
      (uploadSteps done.length fs (done ++ fs.map (fun f => initTask f.1))).1 =
        done ++ fs.map finalTask := by
  induction fs with
  | nil =>
    intro done
    simp [uploadSteps]
  | cons f rest ih =>
    intro done
    obtain ⟨name, r⟩ := f
    have hupd : uploadStep done.length r
        (done ++ initTask name :: rest.map (fun g => initTask g.1)) =
        (done ++ [finalTask (name, r)]) ++ rest.map (fun g => initTask g.1) := by
      cases r with
      | ok doc => simp [uploadStep, updateAt_append, finalTask, successUpdate, initTask]
      | err m => simp [uploadStep, updateAt_append, finalTask, errorUpdate, initTask]
    have hih := ih (done ++ [finalTask (name, r)])
    rw [show (done ++ [finalTask (name, r)]).length = done.length + 1 by simp] at hih
    simp only [List.map_cons, uploadSteps]
    rw [hupd, hih]
    simp

/-- Progress after a whole batch: every entry ends at its own terminal entry,
in input order. -/
theorem onDrop_progress (files : List (String × UploadResult)) :
    (onDrop files).1 = files.map finalTask := by
  have h := uploadSteps_progress files []
  simpa [onDrop] using h

/-- Reported documents of the loop trace are exactly the successful outcomes,
in input order, no matter the starting index and progress. -/
theorem uploadSteps_reports (fs : List (String × UploadResult)) :
    ∀ (i : Nat) (prog : List UploadTask),
      reportedDocs (uploadSteps i fs prog).2 = fs.filterMap okDoc := by
  induction fs with
  | nil => intro i prog; rfl
  | cons f rest ih =>
    intro i prog
    obtain ⟨name, r⟩ := f
    cases r with
    | ok doc =>
      have hih := ih (i + 1) (uploadStep i (UploadResult.ok doc) prog)
      simp only [uploadSteps, uploadBlock, reportedDocs, List.filterMap_append,
        List.filterMap_cons, List.filterMap_nil, okDoc] at hih ⊢
      simp [hih]
    | err m =>
      have hih := ih (i + 1) (uploadStep i (UploadResult.err m) prog)
      simp only [uploadSteps, uploadBlock, reportedDocs, List.filterMap_append,
        List.filterMap_cons, List.filterMap_nil, okDoc] at hih ⊢
      simp [hih]

/-- Call events of the loop trace: exactly one upload call per file, in input
order, starting at the loop index. -/
theorem uploadSteps_calls (fs : List (String × UploadResult)) :
    ∀ (i : Nat) (prog : List UploadTask),
      callsOf (uploadSteps i fs prog).2 = expectedCalls i fs := by
  induction fs with
  | nil => intro i prog; rfl
  | cons f rest ih =>
    intro i prog
    obtain ⟨name, r⟩ := f
    cases r with
    | ok doc =>
      have hih := ih (i + 1) (uploadStep i (UploadResult.ok doc) prog)
      simp only [uploadSteps, uploadBlock, callsOf, List.filter_append, List.filter_cons,
        expectedCalls] at hih ⊢
      simp [hih]
    | err m =>
      have hih := ih (i + 1) (uploadStep i (UploadResult.err m) prog)
      simp only [uploadSteps, uploadBlock, callsOf, List.filter_append, List.filter_cons,
        expectedCalls] at hih ⊢
      simp [hih]

/-- Counting lemma: the successful outcomes of a batch number the batch size
minus its failures. -/
theorem filterMap_okDoc_length (fs : List (String × UploadResult)) :
    (fs.filterMap okDoc).length = fs.length - fs.countP isErrFile := by
  induction fs with
  | nil => rfl
  | cons f rest ih =>
    obtain ⟨name, r⟩ := f
    have hle := List.countP_le_length (p := isErrFile) (l := rest)
    cases r with
    | ok doc =>
      simp [okDoc, isErrFile, List.countP_cons, ih]
      omega
    | err m =>
      simp [okDoc, isErrFile, List.countP_cons, ih]

/-- Ordering invariant of the sequential loop: any upload call for an index
past the loop start is preceded in the trace by the terminal event of the
previous index, because each iteration awaits its own upload before the next
call is issued. -/
theorem uploadSteps_sequential (fs : List (String × UploadResult)) :
    ∀ (i0 : Nat) (prog : List UploadTask) (i k : Nat) (nm : String),
      i0 ≤ i →
      ((uploadSteps i0 fs prog).2).get? k = some (UploadEvent.uploadCall (i + 1) nm) →
      ∃ j, j < k ∧ ∃ e, ((uploadSteps i0 fs prog).2).get? j = some e ∧
        terminalFor i e = true := by
  induction fs with
  | nil =>
    intro i0 prog i k nm _ hk
    simp [uploadSteps] at hk
  | cons f rest ih =>
    intro i0 prog i k nm hle hk
    obtain ⟨name, r⟩ := f
    cases r with
    | ok doc =>
      rw [show (uploadSteps i0 ((name, UploadResult.ok doc) :: rest) prog).2 =
          UploadEvent.uploadCall i0 name :: UploadEvent.taskSuccess i0 doc.id ::
            UploadEvent.reportSuccess i0 doc ::
            (uploadSteps (i0 + 1) rest (uploadStep i0 (UploadResult.ok doc) prog)).2
          from rfl] at hk ⊢
      match k, hk with
      | 0, hk =>
        simp only [List.get?] at hk
        have : i0 = i + 1 := by
          cases hk
          rfl
        omega
      | 1, hk => simp at hk
      | 2, hk => simp at hk
      | (n + 3), hk =>
        have hk' : ((uploadSteps (i0 + 1) rest
            (uploadStep i0 (UploadResult.ok doc) prog)).2).get? n =
            some (UploadEvent.uploadCall (i + 1) nm) := hk
        rcases Nat.lt_or_ge i0 i with hlt | hge
        · obtain ⟨j, hj, e, hje, hterm⟩ := ih (i0 + 1)
            (uploadStep i0 (UploadResult.ok doc) prog) i n nm hlt hk'
          exact ⟨j + 3, by omega, e, hje, hterm⟩
        · have hi0 : i0 = i := Nat.le_antisymm hle hge
          refine ⟨1, by omega, UploadEvent.taskSuccess i0 doc.id, rfl, ?_⟩
          simp [terminalFor, hi0]
    | err m =>
      rw [show (uploadSteps i0 ((name, UploadResult.err m) :: rest) prog).2 =
          UploadEvent.uploadCall i0 name :: UploadEvent.taskError i0 m ::
            (uploadSteps (i0 + 1) rest (uploadStep i0 (UploadResult.err m) prog)).2
          from rfl] at hk ⊢
      match k, hk with
      | 0, hk =>
        simp only [List.get?] at hk
        have : i0 = i + 1 := by
          cases hk
          rfl
        omega
      | 1, hk => simp at hk
      | (n + 2), hk =>
        have hk' : ((uploadSteps (i0 + 1) rest
            (uploadStep i0 (UploadResult.err m) prog)).2).get? n =
            some (UploadEvent.uploadCall (i + 1) nm) := hk
        rcases Nat.lt_or_ge i0 i with hlt | hge
        · obtain ⟨j, hj, e, hje, hterm⟩ := ih (i0 + 1)
            (uploadStep i0 (UploadResult.err m) prog) i n nm hlt hk'
          exact ⟨j + 2, by omega, e, hje, hterm⟩
        · have hi0 : i0 = i := Nat.le_antisymm hle hge
          refine ⟨1, by omega, UploadEvent.taskError i0 m, rfl, ?_⟩
          simp [terminalFor, hi0]

/-! Claim theorems. -/

/-- C1: for every ChatSession state and question text, calling submit while
pending is true, or with an empty or whitespace-only question, is a no-op:
the component state, in particular the message sequence, is unchanged and no
query request is issued to the backend. -/
theorem handleSend_noop_when_blank_or_pending
    (st : ChatState) (docId conversationId : Option Nat) (stored : Option String)
    (outcome : QueryOutcome) (t1 t2 : Nat)
    (h : jsTrim st.input = "" ∨ st.loading = true) :
    handleSend st docId conversationId stored outcome t1 t2 = ⟨st, []⟩ := by
  unfold handleSend
  rw [if_pos h]

/-- Witness for C1: a whitespace-only question is rejected without touching
the state or issuing a request. -/
theorem handleSend_noop_witness :
    handleSend ⟨[], "   ", false⟩ none none none (QueryOutcome.success ⟨"a", [], ""⟩) 0 1 =
      ⟨⟨[], "   ", false⟩, []⟩ :=
  handleSend_noop_when_blank_or_pending ⟨[], "   ", false⟩ none none none
    (QueryOutcome.success ⟨"a", [], ""⟩) 0 1 (Or.inl (by decide))

/-- C2: every accepted submit (non-blank question, not pending) grows the
message sequence by exactly two: the user message first, then exactly one
assistant message, whether the query succeeds or fails, never one or three. -/
theorem handleSend_appends_two
    (st : ChatState) (docId conversationId : Option Nat) (stored : Option String)
    (outcome : QueryOutcome) (t1 t2 : Nat)
    (hq : jsTrim st.input ≠ "") (hp : st.loading = false) :
    ∃ m : Message, m.sender = Sender.assistant ∧
      (handleSend st docId conversationId stored outcome t1 t2).state.messages =
        st.messages ++ [⟨Sender.user, st.input, none, none, t1⟩, m] := by
  have hcond : ¬(jsTrim st.input = "" ∨ st.loading = true) := by
    simp [hq, hp]
  unfold handleSend
  rw [if_neg hcond]
  cases hgs : getApiSettings stored with
  | error e =>
    exact ⟨⟨Sender.assistant, "Error: " ++ errorDetailMsg none e, none, none, t2⟩, rfl, by simp⟩
  | ok s =>
    cases outcome with
    | success resp =>
      exact ⟨⟨Sender.assistant, resp.answer, some resp.citations, some resp.chunks, t2⟩, rfl,
        by simp⟩
    | failure d m =>
      exact ⟨⟨Sender.assistant, "Error: " ++ errorDetailMsg d m, none, none, t2⟩, rfl, by simp⟩

/-- Witness for C2 at a concrete accepted submit with a successful response. -/
theorem handleSend_appends_two_witness :
    ∃ m : Message, m.sender = Sender.assistant ∧
      (handleSend ⟨[], "hi", false⟩ (some 1) none none
          (QueryOutcome.success ⟨"ans", [1], "c"⟩) 0 1).state.messages =
        ([] : List Message) ++ [⟨Sender.user, "hi", none, none, 0⟩, m] :=
  handleSend_appends_two ⟨[], "hi", false⟩ (some 1) none none
    (QueryOutcome.success ⟨"ans", [1], "c"⟩) 0 1 (by decide) rfl

/-- C3: within one batch, the upload call for file i+1 appears in the event
trace only after a terminal progress event (success or error) for file i. -/
theorem upload_sequential (files : List (String × UploadResult)) (i k : Nat) (nm : String)
    (hk : ((onDrop files).2).get? k = some (UploadEvent.uploadCall (i + 1) nm)) :
    ∃ j, j < k ∧ ∃ e, ((onDrop files).2).get? j = some e ∧ terminalFor i e = true := by
  unfold onDrop at hk ⊢
  exact uploadSteps_sequential files 0 (files.map (fun f => initTask f.1)) i k nm
    (Nat.zero_le i) hk

/-- Witness for C3: in a two-file batch the call for the second file (trace
position 3) is preceded by a terminal event for the first. -/
theorem upload_sequential_witness :
    ∃ j, j < 3 ∧ ∃ e,
      ((onDrop [("a.pdf", UploadResult.ok docA),
          ("b.pdf", UploadResult.err "file too large")]).2).get? j = some e ∧
        terminalFor 0 e = true :=
  upload_sequential [("a.pdf", UploadResult.ok docA), ("b.pdf", UploadResult.err "file too large")]
    0 3 "b.pdf" (by decide)

/-- C4: after a batch with failures at arbitrary positions completes, every
progress entry is terminal and matches its own file's outcome (failures are
recorded on that file only, nothing is aborted, rolled back or retried: there
is exactly one upload call per file, in order), and the documents reported
upward are exactly the successes, in upload order, numbering N minus the
failures. -/
theorem upload_batch_outcomes (files : List (String × UploadResult)) :
    (onDrop files).1 = files.map finalTask ∧
    (onDrop files).1.all isTerminal = true ∧
    callsOf (onDrop files).2 = expectedCalls 0 files ∧
    reportedDocs (onDrop files).2 = files.filterMap okDoc ∧
    (reportedDocs (onDrop files).2).length = files.length - files.countP isErrFile := by
  refine ⟨onDrop_progress files, ?_, uploadSteps_calls files 0 _, uploadSteps_reports files 0 _, ?_⟩
  · rw [onDrop_progress files]
    rw [List.all_eq_true]
    intro t ht
    rw [List.mem_map] at ht
    obtain ⟨⟨n, r⟩, _, rfl⟩ := ht
    cases r with
    | ok doc => rfl
    | err m => rfl
  · rw [show reportedDocs (onDrop files).2 = files.filterMap okDoc from
      uploadSteps_reports files 0 _]
    exact filterMap_okDoc_length files

/-- C5: when the backend rejects the delete, the listing and the selection
are both left unchanged and the failure is surfaced with an alert rather than
silently swallowed. -/
theorem handleDelete_failure_unchanged (st : DLState) (docId : Nat) (e : String) :
    handleDelete st docId true (Except.error e) =
      (st, [DLEvent.alertShown "Failed to delete document"]) := by
  simp [handleDelete]

/-- C6: for every settings record stored at submission time, the query body
contains exactly the non-empty override fields: an empty field is omitted
entirely (never sent as an empty string) and a non-empty field is sent
verbatim, alongside the fixed base fields. -/
theorem query_body_settings_merge
    (st : ChatState) (docId conversationId : Option Nat) (str : String) (s : SettingsJson)
    (outcome : QueryOutcome) (t1 t2 : Nat)
    (hq : jsTrim st.input ≠ "") (hp : st.loading = false)
    (hparse : jsonParseSettings str = Except.ok s) :
    ∃ p : QueryPayload,
      (handleSend st docId conversationId (some str) outcome t1 t2).requests = [p] ∧
      p.question = st.input ∧ p.doc_id = docId ∧ p.conversation_id = conversationId ∧
      p.stream = false ∧
      (s.apiBaseUrl = "" → p.api_base_url = none) ∧
      (s.apiBaseUrl ≠ "" → p.api_base_url = some s.apiBaseUrl) ∧
      (s.apiKey = "" → p.api_key = none) ∧
      (s.apiKey ≠ "" → p.api_key = some s.apiKey) ∧
      (s.model = "" → p.model = none) ∧
      (s.model ≠ "" → p.model = some s.model) := by
  have hcond : ¬(jsTrim st.input = "" ∨ st.loading = true) := by simp [hq, hp]
  have hgs : getApiSettings (some str) = Except.ok (some s) := by
    simp [getApiSettings, hparse]
  have hreq : (handleSend st docId conversationId (some str) outcome t1 t2).requests =
      [queryDocument st.input docId conversationId (some s)] := by
    unfold handleSend
    rw [if_neg hcond, hgs]
    cases outcome with
    | success resp => rfl
    | failure d m => rfl
  refine ⟨queryDocument st.input docId conversationId (some s), hreq, rfl, rfl, rfl, rfl,
    ?_, ?_, ?_, ?_, ?_, ?_⟩
  · intro h; simp [queryDocument, h]
  · intro h; simp [queryDocument, h]
  · intro h; simp [queryDocument, h]
  · intro h; simp [queryDocument, h]
  · intro h; simp [queryDocument, h]
  · intro h; simp [queryDocument, h]

/-- Witness for C6, matching the spec example: with only the apiKey field set
to k, the outgoing body carries api_key k and omits api_base_url and model. -/
theorem query_body_settings_merge_witness :
    ∃ p : QueryPayload,
      (handleSend ⟨[], "q", false⟩ (some 42) none (some (stringifySettings ⟨"", "k", ""⟩))
          (QueryOutcome.success ⟨"a", [], ""⟩) 0 1).requests = [p] ∧
      p.api_key = some "k" ∧ p.api_base_url = none ∧ p.model = none := by
  obtain ⟨p, hreq, hq, hd, hc, hs, hb1, hb2, hk1, hk2, hm1, hm2⟩ :=
    query_body_settings_merge ⟨[], "q", false⟩ (some 42) none (stringifySettings ⟨"", "k", ""⟩)
      ⟨"", "k", ""⟩ (QueryOutcome.success ⟨"a", [], ""⟩) 0 1 (by decide) rfl (by decide)
  exact ⟨p, hreq, hk2 (by decide), hb1 rfl, hm1 rfl⟩

/-- C7 counterexample: after selecting document docA, submitting a question
the backend answers, and then selecting document docB, the session presents
the two messages accumulated under docA while its subject is docB — so the
message sequence presented for a subject is not limited to that subject's
conversation. -/
theorem chat_messages_persist_counterexample :
    c7Run.selectedDoc = some docB ∧
    c7Run.chat.messages.map Message.text = ["What is the total revenue?", "$4.2M"] := by
  decide

/-- C7 amended: App renders a single ChatInterface instance shared across
subjects; selecting a document changes the session's subject, but the
accumulated message sequence is retained unchanged, including messages from a
previously selected document. -/
theorem select_doc_retains_chat (st : AppState) (d : DocumentJson) :
    (appStep st (AppAction.selectDoc (some d))).chat = st.chat ∧
    (appStep st (AppAction.selectDoc (some d))).selectedDoc = some d := by
  simp [appStep, applyAction, handleDocSelect, chatMounted]

/-- C8 counterexample: reading a corrupt persisted record fails (the parse
raises) instead of returning an all-empty or absent settings value. -/
theorem settings_read_corrupt_counterexample :
    getApiSettings (some "not-json") ≠ Except.ok none ∧
    getApiSettings (some "not-json") ≠ Except.ok (some ⟨"", "", ""⟩) ∧
    getApiSettings (some "not-json") = Except.error "Unexpected token in JSON" :=
  ⟨by decide, by decide, rfl⟩

/-- C8 amended: reads of an absent persisted record never fail and yield no
settings; a corrupt (unparseable) record makes the read raise the parse error
instead of yielding an all-empty record, and inside handleSend the raised
error is caught and becomes an assistant error message with no query issued. -/
theorem settings_read_amended :
    getApiSettings none = Except.ok none ∧
    (∀ (str e : String), jsonParseSettings str = Except.error e →
      getApiSettings (some str) = Except.error e) ∧
    (∀ (st : ChatState) (docId conversationId : Option Nat) (str e : String)
        (outcome : QueryOutcome) (t1 t2 : Nat),
      jsTrim st.input ≠ "" → st.loading = false →
      jsonParseSettings str = Except.error e →
      (handleSend st docId conversationId (some str) outcome t1 t2).requests = [] ∧
      (handleSend st docId conversationId (some str) outcome t1 t2).state.messages =
        st.messages ++ [⟨Sender.user, st.input, none, none, t1⟩,
          ⟨Sender.assistant, "Error: " ++ errorDetailMsg none e, none, none, t2⟩]) := by
  refine ⟨rfl, ?_, ?_⟩
  · intro str e h
    simp [getApiSettings, h]
  · intro st docId conversationId str e outcome t1 t2 hq hp hparse
    have hcond : ¬(jsTrim st.input = "" ∨ st.loading = true) := by simp [hq, hp]
    have hgs : getApiSettings (some str) = Except.error e := by
      simp [getApiSettings, hparse]
    unfold handleSend
    rw [if_neg hcond, hgs]
    exact ⟨rfl, by simp⟩

/-- Witness for C8 amended, at the concrete corrupt record: the submit issues
no request and appends the user message and the parse-error assistant
message. -/
theorem settings_read_amended_witness :
    (handleSend ⟨[], "q", false⟩ none none (some "not-json")
        (QueryOutcome.success ⟨"a", [], ""⟩) 0 1).requests = [] ∧
    (handleSend ⟨[], "q", false⟩ none none (some "not-json")
        (QueryOutcome.success ⟨"a", [], ""⟩) 0 1).state.messages =
      ([] : List Message) ++ [⟨Sender.user, "q", none, none, 0⟩,
        ⟨Sender.assistant, "Error: " ++ errorDetailMsg none "Unexpected token in JSON",
          none, none, 1⟩] :=
  settings_read_amended.2.2 ⟨[], "q", false⟩ none none "not-json" "Unexpected token in JSON"
    (QueryOutcome.success ⟨"a", [], ""⟩) 0 1 (by decide) rfl (by decide)

/-- C9: handleSave trims all three fields; if all are blank after trimming the
persisted record is deleted, otherwise the full trimmed triple is written; in
both cases the result is independent of whatever was stored before — a full
replacement, never a partial patch. -/
theorem handleSave_trim_replace_or_delete (form : SettingsForm) (prev : Option String) :
    (jsTrim form.apiBaseUrl = "" ∧ jsTrim form.apiKey = "" ∧ jsTrim form.model = "" →
      handleSave form prev = none) ∧
    (¬(jsTrim form.apiBaseUrl = "" ∧ jsTrim form.apiKey = "" ∧ jsTrim form.model = "") →
      handleSave form prev =
        some (stringifySettings ⟨jsTrim form.apiBaseUrl, jsTrim form.apiKey, jsTrim form.model⟩)) ∧
    (∀ prev' : Option String, handleSave form prev = handleSave form prev') := by
  refine ⟨?_, ?_, fun prev' => rfl⟩
  · rintro ⟨h1, h2, h3⟩
    simp [handleSave, h1, h2, h3]
  · intro h
    have hd : jsTrim form.apiBaseUrl ≠ "" ∨ jsTrim form.apiKey ≠ "" ∨ jsTrim form.model ≠ "" := by
      by_contra hc
      push_neg at hc
      exact h ⟨hc.1, hc.2.1, hc.2.2⟩
    simp only [handleSave]
    rw [if_pos hd]

/-- Witness for C9: a form with surrounding whitespace and one blank field is
written as the full trimmed triple over an existing record. -/
theorem handleSave_trim_replace_or_delete_witness :
    handleSave ⟨" u ", "", " k "⟩ (some "old") =
      some (stringifySettings ⟨jsTrim " u ", jsTrim "", jsTrim " k "⟩) :=
  (handleSave_trim_replace_or_delete ⟨" u ", "", " k "⟩ (some "old")).2.1 (by decide)

/-- C10: the listing fetch of DocumentList always issues the documents request
with skip 0 and limit 100 (the api.js defaults, never overridden), so for any
backend state the registry displays at most the first 100 documents. -/
theorem loadDocs_first_page_only :
    loadDocsRequest = getDocumentsRequest 0 100 ∧
    ∀ (st : DLState) (allDocs : List DocumentJson),
      (loadDocs st allDocs).docs = allDocs.take 100 ∧
      (loadDocs st allDocs).docs.length ≤ 100 := by
  refine ⟨rfl, fun st allDocs => ⟨?_, ?_⟩⟩
  · simp [loadDocs, documentsEndpoint, loadDocsRequest, getDocumentsDefaults, getDocumentsRequest]
  · simp only [loadDocs, documentsEndpoint, loadDocsRequest, getDocumentsDefaults,
      getDocumentsRequest, List.drop_zero]
    rw [List.length_take]
    exact min_le_left _ _

end DocuQuery
